import Mathlib

/-!
Verification development for the offline-first synchronization engine of the
DynamicAppointments repository.

The embedding covers:
* `src/lib/sfEventsDb.js` — the Sync Event Store (IndexedDB-backed queue of
  outbound status events): `queueSfEvent`, `getPendingSfEvents`,
  `markSfEventCompleted`, and the schema-recovery wrapper `withStore`.
* `src/hooks/useSfStatusQueue.js` — the Status Event Dispatcher:
  `syncPending`, `queueEvent`, and the per-outcome classification helpers
  `isOkResult`, `extractErrorCode`, `normalizeErrMessage`,
  `isPermanentFailure`, `parseMs`, `toApptEventKey`.

JavaScript values are embedded as follows: possibly-absent (undefined/null)
fields become `Option`; JS truthiness on strings (where the empty string is
falsy) is made explicit through `jsTruthy`/`jsOrStr`; `Date.parse` of the
ISO-8601 UTC strings the application stores is embedded as an executable
proleptic-Gregorian parser over `List Char` (`parseIsoMs`); the IndexedDB
object store keyed by `id` becomes a list of records in insertion order with
`put` replacing the record of the same key; network and clock effects become
explicit parameters (the outcome of the batch HTTP call is passed in as an
`Except`, mirroring a JS promise that either resolves or throws).
-/

namespace SfSync

/-! ### JavaScript-style helpers on optional strings -/

/-- Embedding of JS string truthiness: `undefined`, `null` and `""` are falsy. -/
def jsTruthy : Option String → Option String
  | some s => if s = "" then none else some s
  | none => none

/-- Embedding of the JS `a || d` idiom on a possibly-absent string `a`. -/
def jsOrStr (a : Option String) (d : String) : String :=
  match jsTruthy a with
  | some s => s
  | none => d

/-- Embedding of `a || b` where both operands are possibly-absent strings. -/
def jsOrOpt (a b : Option String) : Option String :=
  match jsTruthy a with
  | some s => some s
  | none => jsTruthy b

/-- Embedding of the JS nullish-coalescing `a ?? b` (only absence falls through;
an empty string does not). -/
def jsCoalesce {α : Type} (a b : Option α) : Option α :=
  match a with
  | some v => some v
  | none => b

/-- Embedding of `x || 0` on a number that is already known to be finite. -/
def jsOrZero (n : Int) : Int := if n = 0 then 0 else n

@[simp] theorem jsOrZero_eq (n : Int) : jsOrZero n = n := by
  unfold jsOrZero; split <;> simp_all

/-! ### Character-level string utilities

The source lowercases/uppercases ASCII error text and tests substring
containment (`String.prototype.includes`); these are embedded over
`List Char` so that every use is kernel-computable. -/

/-- ASCII lower-casing of one character (as `String.prototype.toLowerCase`
acts on the ASCII error text the application manipulates). -/
def lcChar (c : Char) : Char :=
  if 65 ≤ c.toNat ∧ c.toNat ≤ 90 then
    if c = 'A' then 'a' else if c = 'B' then 'b' else if c = 'C' then 'c'
    else if c = 'D' then 'd' else if c = 'E' then 'e' else if c = 'F' then 'f'
    else if c = 'G' then 'g' else if c = 'H' then 'h' else if c = 'I' then 'i'
    else if c = 'J' then 'j' else if c = 'K' then 'k' else if c = 'L' then 'l'
    else if c = 'M' then 'm' else if c = 'N' then 'n' else if c = 'O' then 'o'
    else if c = 'P' then 'p' else if c = 'Q' then 'q' else if c = 'R' then 'r'
    else if c = 'S' then 's' else if c = 'T' then 't' else if c = 'U' then 'u'
    else if c = 'V' then 'v' else if c = 'W' then 'w' else if c = 'X' then 'x'
    else if c = 'Y' then 'y' else 'z'
  else c

/-- ASCII upper-casing of one character (as `String.prototype.toUpperCase`
acts on the ASCII error codes the application compares). -/
def ucChar (c : Char) : Char :=
  if 97 ≤ c.toNat ∧ c.toNat ≤ 122 then
    if c = 'a' then 'A' else if c = 'b' then 'B' else if c = 'c' then 'C'
    else if c = 'd' then 'D' else if c = 'e' then 'E' else if c = 'f' then 'F'
    else if c = 'g' then 'G' else if c = 'h' then 'H' else if c = 'i' then 'I'
    else if c = 'j' then 'J' else if c = 'k' then 'K' else if c = 'l' then 'L'
    else if c = 'm' then 'M' else if c = 'n' then 'N' else if c = 'o' then 'O'
    else if c = 'p' then 'P' else if c = 'q' then 'Q' else if c = 'r' then 'R'
    else if c = 's' then 'S' else if c = 't' then 'T' else if c = 'u' then 'U'
    else if c = 'v' then 'V' else if c = 'w' then 'W' else if c = 'x' then 'X'
    else if c = 'y' then 'Y' else 'Z'
  else c

/-- Lower-case a whole string, character by character. -/
def strToLower (s : String) : String := String.mk (s.toList.map lcChar)

/-- Upper-case a whole string, character by character. -/
def strToUpper (s : String) : String := String.mk (s.toList.map ucChar)

/-- Does `hay` start with `needle`? -/
def charListLeads (needle hay : List Char) : Bool :=
  match needle, hay with
  | [], _ => true
  | _ :: _, [] => false
  | a :: ns, b :: hs => a == b && charListLeads ns hs

/-- Does `hay` contain `needle` as a contiguous run? -/
def charListHasSub (needle hay : List Char) : Bool :=
  match hay with
  | [] => needle.isEmpty
  | _ :: t => charListLeads needle hay || charListHasSub needle t

/-- Embedding of `hay.includes(needle)` on strings. -/
def strIncludes (hay needle : String) : Bool :=
  charListHasSub needle.toList hay.toList

/-- Code-point comparison of strings (the order IndexedDB uses for its string
primary keys). -/
def charListLe : List Char → List Char → Bool
  | [], _ => true
  | _ :: _, [] => false
  | a :: as, b :: bs =>
    if a.toNat < b.toNat then true
    else if b.toNat < a.toNat then false
    else charListLe as bs

/-! ### Embedding of `Date.parse` for the stored ISO-8601 UTC timestamps -/

/-- Numeric value of a decimal digit character, if it is one. -/
def digitVal? (c : Char) : Option Nat :=
  if 48 ≤ c.toNat ∧ c.toNat ≤ 57 then some (c.toNat - 48) else none

/-- Parse a nonempty all-digit run as a natural number. -/
def charsToNat? (l : List Char) : Option Nat :=
  match l with
  | [] => none
  | _ =>
    l.foldl
      (fun acc c =>
        match acc, digitVal? c with
        | some n, some d => some (n * 10 + d)
        | _, _ => none)
      (some 0)

/-- Split a character list at every occurrence of `sep`. -/
def splitOnChar (sep : Char) (l : List Char) : List (List Char) :=
  match l with
  | [] => [[]]
  | c :: t =>
    let r := splitOnChar sep t
    if c = sep then [] :: r
    else
      match r with
      | [] => [[c]]
      | h :: t2 => (c :: h) :: t2

/-- Is year `y` a leap year (proleptic Gregorian)? -/
def isLeap (y : Nat) : Bool := (y % 4 = 0 && y % 100 ≠ 0) || y % 400 = 0

/-- Days from 0001-01-01 to January 1 of year `y` (proleptic Gregorian). -/
def daysBeforeYear (y : Nat) : Nat :=
  let p := y - 1
  365 * p + p / 4 + p / 400 - p / 100

/-- Days from January 1 to the first day of month `m` in a year whose
leap-ness is `leap`. -/
def daysBeforeMonth (leap : Bool) (m : Nat) : Nat :=
  [0, 31, 59, 90, 120, 151, 181, 212, 243, 273, 304, 334].getD (m - 1) 0 +
    (if leap && m > 2 then 1 else 0)

/-- Milliseconds since the Unix epoch of a calendar date plus time of day. -/
def civilToMs (y mo d h mi sec msec : Nat) : Int :=
  (((daysBeforeYear y + daysBeforeMonth (isLeap y) mo + (d - 1) : Nat) : Int)
      - 719162) * 86400000
    + (h : Int) * 3600000 + (mi : Int) * 60000 + (sec : Int) * 1000 + (msec : Int)

/-- Parse the time-of-day part `HH:MM`, `HH:MM:SS` or `HH:MM:SS.sss`. -/
def parseTimeOfDay (time : List Char) : Option (Nat × Nat × Nat × Nat) :=
  match splitOnChar ':' time with
  | [hs, ms] =>
    match charsToNat? hs, charsToNat? ms with
    | some h, some mi => if h ≤ 23 ∧ mi ≤ 59 then some (h, mi, 0, 0) else none
    | _, _ => none
  | [hs, ms, ss] =>
    let (secs, fracs) :=
      match splitOnChar '.' ss with
      | [a] => (a, some 0)
      | [a, b] => (a, if b.length = 3 then charsToNat? b else none)
      | _ => (([] : List Char), none)
    match charsToNat? hs, charsToNat? ms, charsToNat? secs, fracs with
    | some h, some mi, some sec, some msec =>
      if h ≤ 23 ∧ mi ≤ 59 ∧ sec ≤ 59 then some (h, mi, sec, msec) else none
    | _, _, _, _ => none
  | _ => none

/-- Embedding of `Date.parse` on the ISO-8601 UTC strings the application
stores (`YYYY-MM-DD`, optionally followed by `THH:MM[:SS[.sss]]Z`); `none`
plays the role of `NaN` for anything else. -/
def parseIsoMs (s : String) : Option Int :=
  match splitOnChar 'T' s.toList with
  | [datePart] =>
    match splitOnChar '-' datePart with
    | [ys, ms, ds] =>
      match charsToNat? ys, charsToNat? ms, charsToNat? ds with
      | some y, some mo, some d =>
        if 1 ≤ y ∧ 1 ≤ mo ∧ mo ≤ 12 ∧ 1 ≤ d ∧ d ≤ 31 then
          some (civilToMs y mo d 0 0 0 0)
        else none
      | _, _, _ => none
    | _ => none
  | [datePart, timeZ] =>
    match splitOnChar 'Z' timeZ with
    | [time, []] =>
      match splitOnChar '-' datePart with
      | [ys, ms, ds] =>
        match charsToNat? ys, charsToNat? ms, charsToNat? ds with
        | some y, some mo, some d =>
          if 1 ≤ y ∧ 1 ≤ mo ∧ mo ≤ 12 ∧ 1 ≤ d ∧ d ≤ 31 then
            match parseTimeOfDay time with
            | some (h, mi, sec, msec) => some (civilToMs y mo d h mi sec msec)
            | none => none
          else none
        | _, _, _ => none
      | _ => none
    | _ => none
  | _ => none

/-- Embedding of the source helper `parseMs`: `Date.parse` guarded by
`Number.isFinite`, with `0` as the fallback for unparseable input. -/
def parseMs (s : String) : Int := (parseIsoMs s).getD 0

/-! ### Error objects reported by the remote authority

The dispatcher inspects `r.error ?? r.errors`, which in the observed payloads
is a string, a single error object, or an array of error objects whose
entries may carry `errorCode`, `code`, `message` and `Message` fields. -/

/-- One error entry as the remote authority reports it. The `messageCap`
field embeds the capitalised `Message` property the source also probes. -/
structure ErrEntry where
  errorCode : Option String := none
  code : Option String := none
  message : Option String := none
  messageCap : Option String := none
  deriving DecidableEq, Repr

/-- A JS error payload: a bare string, a single object, or an array. -/
inductive ErrObj where
  | str (s : String)
  | one (e : ErrEntry)
  | arr (l : List ErrEntry)
  deriving DecidableEq, Repr

/-- Embedding of `JSON.stringify` on one error entry (present fields only,
in declaration order, as the source's fallback message text). -/
def stringifyErrEntry (e : ErrEntry) : String :=
  let fs :=
    (match e.errorCode with
      | some v => ["\x22errorCode\x22:\x22" ++ v ++ "\x22"]
      | none => []) ++
    (match e.code with
      | some v => ["\x22code\x22:\x22" ++ v ++ "\x22"]
      | none => []) ++
    (match e.message with
      | some v => ["\x22message\x22:\x22" ++ v ++ "\x22"]
      | none => []) ++
    (match e.messageCap with
      | some v => ["\x22Message\x22:\x22" ++ v ++ "\x22"]
      | none => [])
  "\x7b" ++ String.intercalate "," fs ++ "\x7d"

/-- The `arr = Array.isArray(errObj) ? errObj : [errObj]` normalisation for
object-shaped payloads. -/
def errEntries : ErrObj → List ErrEntry
  | .str _ => []
  | .one e => [e]
  | .arr l => l

/-- Embedding of the source helper `normalizeErrMessage`: produce a
`CODE: message` line from whatever shape the error payload has. -/
def normalizeErrMessage (errObj : Option ErrObj) : String :=
  match errObj with
  | none => "Unknown error"
  | some (.str s) => s
  | some eo =>
    let first := (errEntries eo).head?.getD {}
    let code := jsOrStr (jsOrOpt first.errorCode first.code) "ERROR"
    let msg :=
      match jsTruthy first.message with
      | some v => v
      | none =>
        match jsTruthy first.messageCap with
        | some v => v
        | none => stringifyErrEntry first
    code ++ ": " ++ msg

/-! ### Per-outcome classification (Status Event Dispatcher helpers) -/

/-- A nested `event` object inside one per-event outcome. -/
structure SfEventRef where
  appointmentId : Option String := none
  eventType : Option String := none
  occurredAt : Option String := none
  deriving DecidableEq, Repr

/-- One per-event outcome from the remote authority's response. `statusCode`
holds the numeric value after the source's `Number(...)` coercion, with
`none` playing the role of `NaN`. -/
structure SfResult where
  success : Option Bool := none
  statusCode : Option Int := none
  appointmentId : Option String := none
  eventType : Option String := none
  occurredAt : Option String := none
  event : Option SfEventRef := none
  error : Option ErrObj := none
  errors : Option ErrObj := none
  deriving DecidableEq, Repr

/-- The `r?.error ?? r?.errors ?? null` chain. -/
def errOf (r : SfResult) : Option ErrObj := jsCoalesce r.error r.errors

/-- Embedding of the source helper `isOkResult`: explicit `success === true`,
or an HTTP 200/204 status code. -/
def isOkResult (r : SfResult) : Bool :=
  if r.success == some true then true
  else r.statusCode == some 204 || r.statusCode == some 200

/-- Embedding of the source helper `extractErrorCode`: the upper-cased
`errorCode`/`code` of the first error entry, or the empty string. A bare
string payload has no such property, so it also yields the empty string. -/
def extractErrorCode (r : SfResult) : String :=
  match errOf r with
  | none => ""
  | some (.str _) => ""
  | some eo =>
    let first := (errEntries eo).head?.getD {}
    strToUpper (jsOrStr (jsOrOpt first.errorCode first.code) "")

/-- The message signature the source greps for in its extra 404 guard. -/
def missingExternalIdPhrase : String :=
  "provided external id field does not exist"

/-- Embedding of the source helper `isPermanentFailure`: the one Salesforce
404 signature (status 404 with code `NOT_FOUND`, or status 404 with the
missing-external-id message) is permanent; nothing else is. -/
def isPermanentFailure (r : SfResult) : Bool :=
  let sc := r.statusCode
  let code := extractErrorCode r
  let msg := normalizeErrMessage (errOf r)
  if sc == some 404 && code == "NOT_FOUND" then true
  else if sc == some 404 && strIncludes (strToLower msg) missingExternalIdPhrase
    then true
  else false

/-! ### The Sync Event Store (`src/lib/sfEventsDb.js`)

The IndexedDB object store `sfEvents` (keyPath `id`) is embedded as a list of
records in insertion order; `put` replaces the record holding the same key,
otherwise appends. Clock and id generation are explicit parameters. -/

/-- A stored status event, as `queueSfEvent` writes it. -/
structure SfRecord where
  id : String
  appointmentId : Option String := none
  eventType : Option String := none
  statusValue : Option String := none
  occurredAt : Option String := none
  userSub : Option String := none
  userEmail : Option String := none
  userName : Option String := none
  status : String
  createdAt : String
  completedAt : Option String := none
  deriving DecidableEq, Repr

/-- The caller-supplied event object handed to `queueSfEvent`. Every field is
optional: the source spreads the object as-is, so a caller may (deliberately
or not) supply `id`, `status` or `createdAt` of its own. -/
structure EventInput where
  id : Option String := none
  appointmentId : Option String := none
  eventType : Option String := none
  statusValue : Option String := none
  occurredAt : Option String := none
  userSub : Option String := none
  userEmail : Option String := none
  userName : Option String := none
  status : Option String := none
  createdAt : Option String := none
  deriving DecidableEq, Repr

/-- Embedding of `store.put(record)` on an object store with keyPath `id`:
replace the record holding the same key, otherwise append. -/
def putRecord (store : List SfRecord) (rec : SfRecord) : List SfRecord :=
  if store.any (fun r => r.id == rec.id) then
    store.map (fun r => if r.id == rec.id then rec else r)
  else store ++ [rec]

/-- Embedding of the record built by `queueSfEvent`:
`\x7b id, ...event, status: "PENDING", createdAt: event.occurredAt || now \x7d`.
The spread comes after `id`, so a caller-supplied `id` overrides the freshly
generated one; `status` and `createdAt` come after the spread, so they always
win over caller-supplied values. -/
def queueSfEventRecord (freshId now : String) (e : EventInput) : SfRecord :=
  { id := e.id.getD freshId
    appointmentId := e.appointmentId
    eventType := e.eventType
    statusValue := e.statusValue
    occurredAt := e.occurredAt
    userSub := e.userSub
    userEmail := e.userEmail
    userName := e.userName
    status := "PENDING"
    createdAt := jsOrStr e.occurredAt now
    completedAt := none }

/-- Embedding of `queueSfEvent`: build the record, `put` it, return it. -/
def queueSfEvent (freshId now : String) (e : EventInput)
    (store : List SfRecord) : List SfRecord × SfRecord :=
  let record := queueSfEventRecord freshId now e
  (putRecord store record, record)

/-- The primary-key order of the object store: code-point order on the `id`
strings. -/
def idKeyLe (a b : SfRecord) : Prop := charListLe a.id.toList b.id.toList = true

instance : DecidableRel idKeyLe := fun _ _ => instDecidableEqBool _ _

/-- The comparator `getPendingSfEvents` sorts with:
`new Date(a.createdAt) - new Date(b.createdAt)`, oldest first. -/
def createdAtLe (a b : SfRecord) : Prop := parseMs a.createdAt ≤ parseMs b.createdAt

instance : DecidableRel createdAtLe := fun _ _ => Int.decLe _ _

/-- Embedding of `getPendingSfEvents`: `index("status").getAll("PENDING")`
yields the `PENDING` records ordered by primary key (IndexedDB key order on
the `id` strings), which the source then sorts — stably, as ES2019
`Array.prototype.sort` guarantees — by
`new Date(a.createdAt) - new Date(b.createdAt)`, oldest first. -/
def getPendingSfEvents (store : List SfRecord) : List SfRecord :=
  let pendings := store.filter (fun r => r.status == "PENDING")
  let byKey := List.insertionSort idKeyLe pendings
  List.insertionSort createdAtLe byKey

/-- The in-place mutation `markSfEventCompleted` performs on the record it
read back: set `status := "COMPLETED"` and stamp `completedAt`. -/
def completeRecord (now : String) (r : SfRecord) : SfRecord :=
  { r with status := "COMPLETED", completedAt := some now }

/-- Embedding of `markSfEventCompleted`: read the record by `id`; if absent,
do nothing; otherwise set `status := "COMPLETED"`, stamp `completedAt`, and
`put` it back. -/
def markSfEventCompleted (now : String) (id : String)
    (store : List SfRecord) : List SfRecord :=
  match store.find? (fun r => r.id == id) with
  | none => store
  | some found => putRecord store (completeRecord now found)

/-- The status recorded for key `id`, read back through `store.get(id)`. -/
def statusOf (store : List SfRecord) (id : String) : Option String :=
  (store.find? (fun r => r.id == id)).map (fun r => r.status)

/-! ### Sequences of the store's public operations -/

/-- One invocation of a public operation of the Sync Event Store, with its
effectful inputs (generated id, clock) made explicit. -/
inductive StoreOp where
  | queue (freshId now : String) (e : EventInput)
  | getPending
  | markCompleted (now : String) (id : String)
  deriving DecidableEq, Repr

/-- State transition of one public operation (reads leave the store alone). -/
def applyOp (store : List SfRecord) : StoreOp → List SfRecord
  | .queue freshId now e => (queueSfEvent freshId now e store).1
  | .getPending => store
  | .markCompleted now id => markSfEventCompleted now id store

/-- Run a sequence of public operations. -/
def runOps (store : List SfRecord) : List StoreOp → List SfRecord
  | [] => store
  | op :: ops => runOps (applyOp store op) ops

/-- A queue operation is collision-free when the key it will store under
(the caller-supplied id if any, else the generated one) is not already a key
of the store. -/
def safeOp (store : List SfRecord) : StoreOp → Bool
  | .queue freshId _ e => !(store.map (fun r => r.id)).contains (e.id.getD freshId)
  | _ => true

/-- Every step of the sequence is collision-free in the state it runs in. -/
def safeOps (store : List SfRecord) : List StoreOp → Bool
  | [] => true
  | op :: ops => safeOp store op && safeOps (applyOp store op) ops

/-! ### Schema recovery (`withStore`, `src/lib/sfEventsDb.js`)

The wrapper runs the store operation against the opened database; when the
engine throws `NotFoundError` (missing object store), it deletes and reopens
the database — recreating the schema — and reruns the operation exactly once,
surfacing whatever that retry produces; any other error surfaces at once.
The embedding abstracts the database handle to a type parameter and counts
how many times the operation body runs. -/

/-- A JS exception, identified by its `name` as the source inspects it. -/
structure JsError where
  name : String
  deriving DecidableEq, Repr

/-- Embedding of `withStore`: run `fn` on the opened database `db`; on a
`NotFoundError` reset and reopen (yielding the recreated `freshDb`) and run
`fn` once more; surface any other error unchanged. The second component
counts invocations of `fn`. -/
def withStore {Db α : Type} (db freshDb : Db) (fn : Db → Except JsError α) :
    Except JsError α × Nat :=
  match fn db with
  | .ok a => (.ok a, 1)
  | .error e =>
    if e.name = "NotFoundError" then (fn freshDb, 2)
    else (.error e, 1)

/-! ### The Status Event Dispatcher (`src/hooks/useSfStatusQueue.js`) -/

/-- Embedding of `toApptEventKey`: the composite lookup key
`(appointmentId || "") + "::" + (eventType || "")`. -/
def toApptEventKey (appointmentId eventType : Option String) : String :=
  jsOrStr appointmentId "" ++ "::" ++ jsOrStr eventType ""

/-- The candidate object the dispatcher builds from one per-event outcome
(the fields stored into `resultsByApptEvent`). -/
structure Outcome where
  ok : Bool
  appointmentId : String
  eventType : String
  occurredAt : String
  statusCode : Option Int
  errorObj : Option ErrObj
  errorMessage : String
  ts : Int
  permanent : Bool
  deriving DecidableEq, Repr

/-- Embedding of the candidate construction inside `syncPending`'s reduction
loop, including the `?? ` fallback chains for the identifying fields. -/
def mkCandidate (r : SfResult) : Outcome :=
  let apptId :=
    (jsCoalesce (r.event.bind (fun ev => ev.appointmentId)) r.appointmentId).getD ""
  let evtType :=
    (jsCoalesce r.eventType (r.event.bind (fun ev => ev.eventType))).getD ""
  let occ :=
    (jsCoalesce r.occurredAt (r.event.bind (fun ev => ev.occurredAt))).getD ""
  let ok := isOkResult r
  { ok := ok
    appointmentId := apptId
    eventType := evtType
    occurredAt := occ
    statusCode := r.statusCode
    errorObj := errOf r
    errorMessage := if ok then "" else normalizeErrMessage (errOf r)
    ts := parseMs occ
    permanent := !ok && isPermanentFailure r }

/-- First-match lookup in the embedded JS object `resultsByApptEvent`. -/
def alookup (m : List (String × Outcome)) (k : String) : Option Outcome :=
  match m with
  | [] => none
  | (k', v) :: t => if k' == k then some v else alookup t k

/-- Embedding of the JS property assignment `m[k] = v`: update in place,
or add the key at the end. -/
def aupsert (m : List (String × Outcome)) (k : String) (v : Outcome) :
    List (String × Outcome) :=
  match m with
  | [] => [(k, v)]
  | (k', v') :: t =>
    if k' == k then (k, v) :: t else (k', v') :: aupsert t k v

/-- One step of the outcome reduction: keep the candidate when there is no
entry for its key yet, or when `candidate._ts >= (existing._ts || 0)`. -/
def reduceStep (m : List (String × Outcome)) (r : SfResult) :
    List (String × Outcome) :=
  let c := mkCandidate r
  let key := toApptEventKey (some c.appointmentId) (some c.eventType)
  match alookup m key with
  | none => aupsert m key c
  | some existing =>
    if jsOrZero existing.ts ≤ c.ts then aupsert m key c else m

/-- Embedding of the reduction of the response's `results` array to the
latest outcome per `(appointmentId, eventType)` key. -/
def reduceOutcomes (results : List SfResult) : List (String × Outcome) :=
  results.foldl reduceStep []

/-- The aggregate result object `syncPending` returns. -/
structure SyncResult where
  processed : Nat
  completed : Nat
  keptPending : Nat
  droppedPermanent : Nat
  resultsByApptEvent : List (String × Outcome)
  raw : Option (List SfResult)
  rawText : String
  deriving DecidableEq, Repr

/-- The no-op result returned on a failed precondition check. -/
def emptySyncResult : SyncResult :=
  { processed := 0
    completed := 0
    keptPending := 0
    droppedPermanent := 0
    resultsByApptEvent := []
    raw := none
    rawText := "" }

/-- Embedding of the per-event disposition loop of `syncPending`: for each
locally pending event, look up its outcome under the composite key; no
outcome or a transient failure keeps it pending, success or a permanent
failure marks it completed. Returns the updated store and the
`(completed, keptPending, droppedPermanent)` counters. -/
def processPending (now : String) (m : List (String × Outcome))
    (store : List SfRecord) (pending : List SfRecord) :
    List SfRecord × Nat × Nat × Nat :=
  match pending with
  | [] => (store, 0, 0, 0)
  | evt :: rest =>
    match alookup m (toApptEventKey evt.appointmentId evt.eventType) with
    | none =>
      let t := processPending now m store rest
      (t.1, t.2.1, t.2.2.1 + 1, t.2.2.2)
    | some outcome =>
      if outcome.ok then
        let t := processPending now m (markSfEventCompleted now evt.id store) rest
        (t.1, t.2.1 + 1, t.2.2.1, t.2.2.2)
      else if outcome.permanent then
        let t := processPending now m (markSfEventCompleted now evt.id store) rest
        (t.1, t.2.1, t.2.2.1, t.2.2.2 + 1)
      else
        let t := processPending now m store rest
        (t.1, t.2.1, t.2.2.1 + 1, t.2.2.2)

/-- The outcome of the one batch HTTP call `sendEventsBatchToSalesforce`
makes, as the dispatcher sees it: the call throws (network failure, or a
non-2xx HTTP status turned into `throw new Error(...)`) before any per-event
outcome is parsed, or it resolves with the parsed `results` array (`none`
when the body was empty, non-JSON, or had no array-valued `results`) plus
the raw body text. -/
def BatchCallResult : Type := Except String (Option (List SfResult) × String)

/-- Embedding of `syncPending`: precondition checks (credential, then
connectivity, then a non-empty pending queue) return the no-op result with
the store untouched; a throwing batch call propagates with the store
untouched; a resolved call reduces the outcomes and runs the disposition
loop. The updated store is returned alongside the JS return value. -/
def syncPending (idToken : Option String) (onLine : Bool) (now : String)
    (net : BatchCallResult) (store : List SfRecord) :
    List SfRecord × Except String SyncResult :=
  if !(jsTruthy idToken).isSome || !onLine then (store, .ok emptySyncResult)
  else
    let pending := getPendingSfEvents store
    if pending.isEmpty then (store, .ok emptySyncResult)
    else
      match net with
      | .error e => (store, .error e)
      | .ok (data, rawText) =>
        let results := data.getD []
        let m := reduceOutcomes results
        let (store2, c, k, d) := processPending now m store pending
        (store2,
          .ok
            { processed := pending.length
              completed := c
              keptPending := k
              droppedPermanent := d
              resultsByApptEvent := m
              raw := data
              rawText := rawText })

/-- The identity snapshot the hook receives. -/
structure UserInfo where
  sub : Option String := none
  email : Option String := none
  name : Option String := none
  deriving DecidableEq, Repr

/-- The JS return value of `queueEvent`. -/
structure QueueEventResult where
  queued : Option SfRecord
  syncRes : Option SyncResult
  deriving DecidableEq, Repr

/-- Embedding of the hook's `queueEvent`: reject synchronously when the
event is absent or has a falsy `appointmentId` (returning
`\x7b queued: null, syncRes: null \x7d` with nothing persisted); otherwise
stamp the user snapshot, persist through `queueSfEvent`, and — when
`autoSync` is on, the device is online and a credential exists — attempt an
immediate `syncPending`, swallowing its exception. -/
def queueEvent (idToken : Option String) (user : Option UserInfo)
    (onLine : Bool) (freshId now : String) (net : BatchCallResult)
    (event : Option EventInput) (autoSyncOpt : Option Bool)
    (store : List SfRecord) : List SfRecord × QueueEventResult :=
  let autoSync := autoSyncOpt != some false
  match event with
  | none => (store, { queued := none, syncRes := none })
  | some e =>
    if jsOrStr e.appointmentId "" = "" then
      (store, { queued := none, syncRes := none })
    else
      let withUser :=
        { e with
          userSub := user.bind (fun u => u.sub)
          userEmail := user.bind (fun u => u.email)
          userName := user.bind (fun u => u.name) }
      let (store1, queued) := queueSfEvent freshId now withUser store
      if !autoSync then (store1, { queued := some queued, syncRes := none })
      else if onLine && (jsTruthy idToken).isSome then
        match syncPending idToken onLine now net store1 with
        | (store2, .ok sr) =>
          (store2, { queued := some queued, syncRes := some sr })
        | (store2, .error _) =>
          (store2, { queued := some queued, syncRes := none })
      else (store1, { queued := some queued, syncRes := none })

/-! ### Spec-side reduction (for comparison with `reduceOutcomes`) -/

/-- The candidates a given composite key receives, in response order. -/
def candidatesFor (results : List SfResult) (key : String) : List Outcome :=
  (results.map mkCandidate).filter
    (fun c => toApptEventKey (some c.appointmentId) (some c.eventType) == key)

/-- One comparison step of the timestamp reduction: the candidate wins
whenever its timestamp is at least the accumulated one. -/
def keepLater (acc : Option Outcome) (c : Outcome) : Option Outcome :=
  match acc with
  | none => some c
  | some a => if a.ts ≤ c.ts then some c else some a

/-- Keep the outcome with the latest occurrence timestamp, a later-seen
outcome replacing an earlier one on equal timestamps. -/
def lastMaxByTs (l : List Outcome) : Option Outcome :=
  l.foldl keepLater none

/-! ### Concrete instances used by counterexamples and witnesses -/

/-- C1 witness data: one pending event. -/
def c1Record : SfRecord :=
  { id := "p1", appointmentId := some "WO-3", eventType := some "START",
    status := "PENDING", createdAt := "2024-02-01T00:00:00Z" }

/-- C1 witness data: a store holding one pending event. -/
def c1Store : List SfRecord := [c1Record]

/-- C2 witness data: a pending event that will succeed. -/
def c2Evt1 : SfRecord :=
  { id := "e1", appointmentId := some "A1", eventType := some "START",
    status := "PENDING", createdAt := "2024-01-01T00:00:00Z" }

/-- C2 witness data: a pending event that will fail permanently. -/
def c2Evt2 : SfRecord :=
  { id := "e2", appointmentId := some "A2", eventType := some "START",
    status := "PENDING", createdAt := "2024-01-02T00:00:00Z" }

/-- C2 witness data: a pending event that will fail transiently. -/
def c2Evt3 : SfRecord :=
  { id := "e3", appointmentId := some "A3", eventType := some "START",
    status := "PENDING", createdAt := "2024-01-03T00:00:00Z" }

/-- C2 witness data: a pending event with no matching outcome. -/
def c2Evt4 : SfRecord :=
  { id := "e4", appointmentId := some "A4", eventType := some "START",
    status := "PENDING", createdAt := "2024-01-04T00:00:00Z" }

/-- C2 witness data: four pending events. -/
def c2Store : List SfRecord := [c2Evt1, c2Evt2, c2Evt3, c2Evt4]

/-- C2 witness data: a success outcome for `e1`. -/
def c2OkResult : SfResult :=
  { success := some true, appointmentId := some "A1",
    eventType := some "START", occurredAt := some "2024-01-01T00:00:00Z" }

/-- C2 witness data: a permanent-failure outcome for `e2`. -/
def c2PermResult : SfResult :=
  { statusCode := some 404, appointmentId := some "A2",
    eventType := some "START", occurredAt := some "2024-01-02T00:00:00Z",
    error := some (.one { errorCode := some "NOT_FOUND" }) }

/-- C2 witness data: a transient-failure outcome for `e3`. -/
def c2TransResult : SfResult :=
  { statusCode := some 500, appointmentId := some "A3",
    eventType := some "START", occurredAt := some "2024-01-03T00:00:00Z",
    error := some (.one { message := some "gateway timeout" }) }

/-- C2 witness data: the parsed response body. -/
def c2Data : Option (List SfResult) :=
  some [c2OkResult, c2PermResult, c2TransResult]

/-- C4 counterexample data: a success outcome seen first. -/
def c4Success : SfResult :=
  { statusCode := some 200, appointmentId := some "A",
    eventType := some "T", occurredAt := some "2024-01-01T00:00:00Z" }

/-- C4 counterexample data: a failure outcome for the same key with the same
occurrence timestamp, seen second. -/
def c4Failure : SfResult :=
  { statusCode := some 500, appointmentId := some "A",
    eventType := some "T", occurredAt := some "2024-01-01T00:00:00Z" }

/-- C6 counterexample data: an already-completed stored event. -/
def c6Completed : SfRecord :=
  { id := "k1", appointmentId := some "WO-7", eventType := some "START",
    status := "COMPLETED", createdAt := "2024-01-01T00:00:00Z",
    completedAt := some "2024-01-02T00:00:00Z" }

/-- C6 counterexample data: a queued input whose caller-supplied id collides
with the stored record `k1`. -/
def c6CollidingInput : EventInput :=
  { id := some "k1", appointmentId := some "WO-9" }

/-- C6 witness data: a collision-free operation sequence. -/
def c6SafeSequence : List StoreOp :=
  [.markCompleted "2024-01-03T00:00:00Z" "k1",
   .queue "fresh-1" "2024-01-04T00:00:00Z" { appointmentId := some "WO-8" },
   .getPending]

/-- C8 counterexample data: the event queued first, carrying the later
`occurredAt`. -/
def c8QueuedFirst : EventInput :=
  { appointmentId := some "WO-1", eventType := some "START",
    occurredAt := some "2024-01-02T00:00:00.000Z" }

/-- C8 counterexample data: the event queued second, carrying the earlier
`occurredAt`. -/
def c8QueuedSecond : EventInput :=
  { appointmentId := some "WO-1", eventType := some "END",
    occurredAt := some "2024-01-01T00:00:00.000Z" }

/-- C8 counterexample data: the store after queueing the two events in
order. -/
def c8Store : List SfRecord :=
  runOps []
    [.queue "id-b" "2024-03-01T10:00:00Z" c8QueuedFirst,
     .queue "id-a" "2024-03-01T10:05:00Z" c8QueuedSecond]

/-- C9 witness data: an input with an empty appointment id. -/
def c9EmptyApptInput : EventInput :=
  { appointmentId := some "", eventType := some "START",
    occurredAt := some "2024-01-01T00:00:00Z" }

/-- C10 witness data: an input that supplies its own id, status and
createdAt. -/
def c10Input : EventInput :=
  { id := some "caller-id", appointmentId := some "WO-2",
    eventType := some "END", occurredAt := some "2024-05-05T10:00:00Z",
    status := some "COMPLETED", createdAt := some "1999-01-01T00:00:00Z" }

/-! ## Supporting lemmas -/

theorem mem_getPendingSfEvents (store : List SfRecord) (r : SfRecord) :
    r ∈ getPendingSfEvents store ↔ r ∈ store ∧ r.status = "PENDING" := by
  simp only [getPendingSfEvents]
  rw [List.Perm.mem_iff (List.perm_insertionSort _ _),
    List.Perm.mem_iff (List.perm_insertionSort _ _), List.mem_filter]
  simp [beq_iff_eq]

theorem sorted_getPendingSfEvents (store : List SfRecord) :
    List.Pairwise createdAtLe (getPendingSfEvents store) := by
  haveI : IsTotal SfRecord createdAtLe := ⟨fun a b => Int.le_total _ _⟩
  haveI : IsTrans SfRecord createdAtLe := ⟨fun _ _ _ hab hbc => Int.le_trans hab hbc⟩
  exact List.sorted_insertionSort _ _

theorem putRecord_append (store : List SfRecord) (rec : SfRecord)
    (h : store.any (fun r => r.id == rec.id) = false) :
    putRecord store rec = store ++ [rec] := by
  simp [putRecord, h]

theorem find?_map_replace (store : List SfRecord) (rep : SfRecord) (i : String)
    (hne : i ≠ rep.id) :
    (store.map (fun x => if x.id == rep.id then rep else x)).find?
        (fun r => r.id == i)
      = store.find? (fun r => r.id == i) := by
  induction store with
  | nil => rfl
  | cons s t ih =>
    rw [List.map_cons]
    by_cases hs : s.id = rep.id
    · rw [if_pos (by simpa [beq_iff_eq] using hs)]
      rw [List.find?_cons_of_neg _ (by simp [beq_iff_eq]; exact fun hh => hne hh.symm),
        List.find?_cons_of_neg _
          (by simp [beq_iff_eq, hs]; exact fun hh => hne hh.symm),
        ih]
    · rw [if_neg (by simpa [beq_iff_eq] using hs)]
      by_cases hi : s.id = i
      · rw [List.find?_cons_of_pos _ (by simpa [beq_iff_eq] using hi),
          List.find?_cons_of_pos _ (by simpa [beq_iff_eq] using hi)]
      · rw [List.find?_cons_of_neg _ (by simpa [beq_iff_eq] using hi),
          List.find?_cons_of_neg _ (by simpa [beq_iff_eq] using hi), ih]

theorem find?_map_replace_self (store : List SfRecord) (rep : SfRecord)
    (h : store.any (fun x => x.id == rep.id) = true) :
    (store.map (fun x => if x.id == rep.id then rep else x)).find?
        (fun r => r.id == rep.id)
      = some rep := by
  induction store with
  | nil => simp at h
  | cons s t ih =>
    rw [List.map_cons]
    by_cases hs : s.id = rep.id
    · rw [if_pos (by simpa [beq_iff_eq] using hs)]
      exact List.find?_cons_of_pos _ (by simp)
    · rw [if_neg (by simpa [beq_iff_eq] using hs)]
      have ht : t.any (fun x => x.id == rep.id) = true := by
        rcases List.any_eq_true.mp h with ⟨x, hx, hxp⟩
        rcases List.mem_cons.mp hx with hx | hx
        · exact absurd (by simpa [beq_iff_eq, hx] using hxp) hs
        · exact List.any_eq_true.mpr ⟨x, hx, hxp⟩
      rw [List.find?_cons_of_neg _ (by simpa [beq_iff_eq] using hs), ih ht]

theorem completeRecord_id (now : String) (r : SfRecord) :
    (completeRecord now r).id = r.id := rfl

theorem completeRecord_status (now : String) (r : SfRecord) :
    (completeRecord now r).status = "COMPLETED" := rfl

theorem statusOf_markSfEventCompleted_other (now id : String)
    (store : List SfRecord) (i : String) (hne : i ≠ id) :
    statusOf (markSfEventCompleted now id store) i = statusOf store i := by
  cases hf : store.find? (fun r => r.id == id) with
  | none =>
    have heq : markSfEventCompleted now id store = store := by
      unfold markSfEventCompleted
      rw [hf]
    rw [heq]
  | some found =>
    have heq : markSfEventCompleted now id store
        = putRecord store (completeRecord now found) := by
      unfold markSfEventCompleted
      rw [hf]
    have hrid : found.id = id := by
      have := List.find?_some hf
      simpa [beq_iff_eq] using this
    have hmem : found ∈ store := List.mem_of_find?_eq_some hf
    have hany : store.any (fun x => x.id == (completeRecord now found).id) = true :=
      List.any_eq_true.mpr ⟨found, hmem, by simp [completeRecord_id]⟩
    rw [heq]
    unfold statusOf putRecord
    rw [if_pos hany, find?_map_replace]
    rw [completeRecord_id, hrid]
    exact hne

theorem statusOf_markSfEventCompleted_self (now id : String)
    (store : List SfRecord) (h : ∃ r, r ∈ store ∧ r.id = id) :
    statusOf (markSfEventCompleted now id store) id = some "COMPLETED" := by
  cases hf : store.find? (fun r => r.id == id) with
  | none =>
    obtain ⟨r, hr, hri⟩ := h
    have := List.find?_eq_none.mp hf r hr
    simp [beq_iff_eq, hri] at this
  | some found =>
    have heq : markSfEventCompleted now id store
        = putRecord store (completeRecord now found) := by
      unfold markSfEventCompleted
      rw [hf]
    have hrid : found.id = id := by
      have := List.find?_some hf
      simpa [beq_iff_eq] using this
    have hmem : found ∈ store := List.mem_of_find?_eq_some hf
    have hany : store.any (fun x => x.id == (completeRecord now found).id) = true :=
      List.any_eq_true.mpr ⟨found, hmem, by simp [completeRecord_id]⟩
    have hcid : (completeRecord now found).id = id :=
      (completeRecord_id now found).trans hrid
    rw [heq]
    unfold statusOf putRecord
    rw [if_pos hany]
    have hfind := find?_map_replace_self store (completeRecord now found) hany
    rw [hcid] at hfind
    rw [hcid, hfind]
    rfl

theorem markSfEventCompleted_preserves_completed (now id : String)
    (store : List SfRecord) (i : String)
    (h : ∃ r, r ∈ store ∧ r.id = i ∧ r.status = "COMPLETED") :
    ∃ r', r' ∈ markSfEventCompleted now id store ∧ r'.id = i ∧
      r'.status = "COMPLETED" := by
  cases hf : store.find? (fun r => r.id == id) with
  | none =>
    have heq : markSfEventCompleted now id store = store := by
      unfold markSfEventCompleted
      rw [hf]
    rw [heq]
    exact h
  | some found =>
    have heq : markSfEventCompleted now id store
        = putRecord store (completeRecord now found) := by
      unfold markSfEventCompleted
      rw [hf]
    obtain ⟨r, hr, hri, hrs⟩ := h
    have hmem : found ∈ store := List.mem_of_find?_eq_some hf
    have hany : store.any (fun x => x.id == (completeRecord now found).id) = true :=
      List.any_eq_true.mpr ⟨found, hmem, by simp [completeRecord_id]⟩
    rw [heq]
    unfold putRecord
    rw [if_pos hany]
    have himg := List.mem_map_of_mem
      (fun x => if x.id == (completeRecord now found).id
        then completeRecord now found else x) hr
    by_cases hcase : r.id = found.id
    · have himval : (fun x => if (x.id == (completeRecord now found).id) = true
          then completeRecord now found else x) r = completeRecord now found := by
        simp [completeRecord_id, hcase]
      rw [himval] at himg
      exact ⟨completeRecord now found, himg,
        (completeRecord_id now found).trans (hcase ▸ hri),
        completeRecord_status now found⟩
    · have himval : (fun x => if (x.id == (completeRecord now found).id) = true
          then completeRecord now found else x) r = r := by
        simp [completeRecord_id, hcase]
      rw [himval] at himg
      exact ⟨r, himg, hri, hrs⟩

theorem markSfEventCompleted_preserves_exists (now id : String)
    (store : List SfRecord) (i : String)
    (h : ∃ r, r ∈ store ∧ r.id = i) :
    ∃ r', r' ∈ markSfEventCompleted now id store ∧ r'.id = i := by
  cases hf : store.find? (fun r => r.id == id) with
  | none =>
    have heq : markSfEventCompleted now id store = store := by
      unfold markSfEventCompleted
      rw [hf]
    rw [heq]
    exact h
  | some found =>
    have heq : markSfEventCompleted now id store
        = putRecord store (completeRecord now found) := by
      unfold markSfEventCompleted
      rw [hf]
    obtain ⟨r, hr, hri⟩ := h
    have hmem : found ∈ store := List.mem_of_find?_eq_some hf
    have hany : store.any (fun x => x.id == (completeRecord now found).id) = true :=
      List.any_eq_true.mpr ⟨found, hmem, by simp [completeRecord_id]⟩
    rw [heq]
    unfold putRecord
    rw [if_pos hany]
    have himg := List.mem_map_of_mem
      (fun x => if x.id == (completeRecord now found).id
        then completeRecord now found else x) hr
    by_cases hcase : r.id = found.id
    · have himval : (fun x => if (x.id == (completeRecord now found).id) = true
          then completeRecord now found else x) r = completeRecord now found := by
        simp [completeRecord_id, hcase]
      rw [himval] at himg
      exact ⟨completeRecord now found, himg,
        (completeRecord_id now found).trans (hcase ▸ hri)⟩
    · have himval : (fun x => if (x.id == (completeRecord now found).id) = true
          then completeRecord now found else x) r = r := by
        simp [completeRecord_id, hcase]
      rw [himval] at himg
      exact ⟨r, himg, hri⟩

theorem applyOp_queue_append (st : List SfRecord) (freshId now : String)
    (e : EventInput) (hs : safeOp st (.queue freshId now e) = true) :
    applyOp st (.queue freshId now e) = st ++ [queueSfEventRecord freshId now e] := by
  have hcont : (st.map (fun r => r.id)).contains (e.id.getD freshId) = false := by
    have h2 := hs
    unfold safeOp at h2
    rwa [Bool.not_eq_true'] at h2
  have hany : st.any (fun r =>
      r.id == (queueSfEventRecord freshId now e).id) = false := by
    rw [Bool.eq_false_iff]
    intro hx
    obtain ⟨x, hxmem, hxid⟩ := List.any_eq_true.mp hx
    rw [beq_iff_eq] at hxid
    have hid : (queueSfEventRecord freshId now e).id = e.id.getD freshId := rfl
    rw [hid] at hxid
    have hmem : (e.id.getD freshId) ∈ st.map (fun r => r.id) :=
      hxid ▸ List.mem_map_of_mem (fun r => r.id) hxmem
    have hcT : (st.map (fun r => r.id)).contains (e.id.getD freshId) = true := by
      rw [List.contains_eq_any_beq]
      exact List.any_eq_true.mpr ⟨_, hmem, by simp⟩
    rw [hcT] at hcont
    simp at hcont
  exact putRecord_append st (queueSfEventRecord freshId now e) hany

theorem applyOp_preserves_completed (store : List SfRecord) (op : StoreOp)
    (i : String) (hs : safeOp store op = true)
    (h : ∃ r, r ∈ store ∧ r.id = i ∧ r.status = "COMPLETED") :
    ∃ r', r' ∈ applyOp store op ∧ r'.id = i ∧ r'.status = "COMPLETED" := by
  cases op with
  | queue freshId now e =>
    obtain ⟨r, hr, hri, hrs⟩ := h
    rw [applyOp_queue_append store freshId now e hs]
    exact ⟨r, List.mem_append_left _ hr, hri, hrs⟩
  | getPending => exact h
  | markCompleted now id =>
    exact markSfEventCompleted_preserves_completed now id store i h

theorem runOps_preserves_completed (ops : List StoreOp) :
    ∀ (store : List SfRecord), safeOps store ops = true →
    ∀ i, (∃ r, r ∈ store ∧ r.id = i ∧ r.status = "COMPLETED") →
      ∃ r', r' ∈ runOps store ops ∧ r'.id = i ∧ r'.status = "COMPLETED" := by
  induction ops with
  | nil => intro store _ i h; exact h
  | cons op ops ih =>
    intro store hsafe i h
    rw [safeOps, Bool.and_eq_true] at hsafe
    exact ih (applyOp store op) hsafe.2 i
      (applyOp_preserves_completed store op i hsafe.1 h)

theorem alookup_aupsert_self (m : List (String × Outcome)) (k : String)
    (v : Outcome) : alookup (aupsert m k v) k = some v := by
  induction m with
  | nil => simp [aupsert, alookup]
  | cons p t ih =>
    obtain ⟨k1, v1⟩ := p
    by_cases hk : k1 = k
    · simp [aupsert, alookup, hk]
    · have hb : (k1 == k) = false := by simp [beq_iff_eq, hk]
      simp [aupsert, alookup, hb, ih]

theorem alookup_aupsert_other (m : List (String × Outcome)) (k : String)
    (v : Outcome) (k' : String) (h : k' ≠ k) :
    alookup (aupsert m k v) k' = alookup m k' := by
  induction m with
  | nil =>
    have hb : (k == k') = false := by simp [beq_iff_eq]; exact fun hh => h hh.symm
    simp [aupsert, alookup, hb]
  | cons p t ih =>
    obtain ⟨k1, v1⟩ := p
    by_cases hk : k1 = k
    · have hb : (k1 == k) = true := by simp [beq_iff_eq, hk]
      have hb2 : (k == k') = false := by simp [beq_iff_eq]; exact fun hh => h hh.symm
      have hb3 : (k1 == k') = false := by
        simp [beq_iff_eq, hk]; exact fun hh => h hh.symm
      simp [aupsert, alookup, hb, hb2, hb3]
    · have hb : (k1 == k) = false := by simp [beq_iff_eq, hk]
      by_cases hk' : k1 = k'
      · subst hk'
        simp [aupsert, alookup, hb]
      · have hb2 : (k1 == k') = false := by simp [beq_iff_eq, hk']
        simp [aupsert, alookup, hb, hb2, ih]

theorem alookup_reduceStep_self (m : List (String × Outcome)) (r : SfResult) :
    alookup (reduceStep m r)
        (toApptEventKey (some (mkCandidate r).appointmentId)
          (some (mkCandidate r).eventType))
      = keepLater
          (alookup m (toApptEventKey (some (mkCandidate r).appointmentId)
            (some (mkCandidate r).eventType)))
          (mkCandidate r) := by
  unfold reduceStep
  cases hm : alookup m (toApptEventKey (some (mkCandidate r).appointmentId)
      (some (mkCandidate r).eventType)) with
  | none =>
    simp only [hm]
    rw [alookup_aupsert_self]
    rfl
  | some existing =>
    simp only [hm]
    by_cases hle : jsOrZero existing.ts ≤ (mkCandidate r).ts
    · rw [if_pos hle, alookup_aupsert_self]
      simp only [keepLater]
      rw [if_pos (by simpa using hle)]
    · rw [if_neg hle, hm]
      simp only [keepLater]
      rw [if_neg (by simpa using hle)]

theorem alookup_reduceStep_other (m : List (String × Outcome)) (r : SfResult)
    (key : String)
    (hk : toApptEventKey (some (mkCandidate r).appointmentId)
      (some (mkCandidate r).eventType) ≠ key) :
    alookup (reduceStep m r) key = alookup m key := by
  unfold reduceStep
  cases hm : alookup m (toApptEventKey (some (mkCandidate r).appointmentId)
      (some (mkCandidate r).eventType)) with
  | none =>
    simp only [hm]
    exact alookup_aupsert_other m _ _ key (fun hh => hk hh.symm)
  | some existing =>
    simp only [hm]
    by_cases hle : jsOrZero existing.ts ≤ (mkCandidate r).ts
    · rw [if_pos hle]
      exact alookup_aupsert_other m _ _ key (fun hh => hk hh.symm)
    · rw [if_neg hle]

theorem alookup_foldl_reduceStep (rs : List SfResult) :
    ∀ (m : List (String × Outcome)) (key : String),
    alookup (rs.foldl reduceStep m) key
      = (candidatesFor rs key).foldl keepLater (alookup m key) := by
  induction rs with
  | nil => intro m key; rfl
  | cons r t ih =>
    intro m key
    rw [List.foldl_cons, ih]
    unfold candidatesFor
    rw [List.map_cons, List.filter_cons]
    by_cases hk : toApptEventKey (some (mkCandidate r).appointmentId)
        (some (mkCandidate r).eventType) = key
    · subst hk
      rw [if_pos (by simp), List.foldl_cons, alookup_reduceStep_self]
    · rw [if_neg (by simpa [beq_iff_eq] using hk),
        alookup_reduceStep_other m r key hk]

theorem foldl_keepLater_max (l : List Outcome) :
    ∀ (acc : Option Outcome) (o : Outcome), l.foldl keepLater acc = some o →
      (∀ a, acc = some a → a.ts ≤ o.ts) ∧ (∀ c, c ∈ l → c.ts ≤ o.ts) := by
  induction l with
  | nil =>
    intro acc o h
    refine ⟨fun a ha => ?_, fun c hc => absurd hc (List.not_mem_nil c)⟩
    rw [ha] at h
    cases h
    exact le_refl _
  | cons x t ih =>
    intro acc o h
    rw [List.foldl_cons] at h
    obtain ⟨ih1, ih2⟩ := ih (keepLater acc x) o h
    have hx : x.ts ≤ o.ts := by
      cases acc with
      | none => exact ih1 x rfl
      | some a =>
        by_cases hle : a.ts ≤ x.ts
        · exact ih1 x (by simp [keepLater, hle])
        · have hax : a.ts ≤ o.ts := ih1 a (by simp [keepLater, hle])
          exact le_trans (le_of_lt (lt_of_not_le hle)) hax
    refine ⟨fun a ha => ?_, fun c hc => ?_⟩
    · subst ha
      by_cases hle : a.ts ≤ x.ts
      · exact le_trans hle hx
      · exact ih1 a (by simp [keepLater, hle])
    · rcases List.mem_cons.mp hc with hcx | hct
      · rw [hcx]; exact hx
      · exact ih2 c hct

theorem find?_of_mem_nodup (store : List SfRecord) (r : SfRecord)
    (hn : (store.map (fun x => x.id)).Nodup) (hr : r ∈ store) :
    store.find? (fun x => x.id == r.id) = some r := by
  induction store with
  | nil => cases hr
  | cons s t ih =>
    rw [List.map_cons, List.nodup_cons] at hn
    rcases List.mem_cons.mp hr with hrs | hrt
    · rw [hrs]
      exact List.find?_cons_of_pos _ (by simp)
    · have hne : s.id ≠ r.id := fun hh =>
        hn.1 (hh ▸ List.mem_map_of_mem (fun x => x.id) hrt)
      rw [List.find?_cons_of_neg _ (by simpa [beq_iff_eq] using hne)]
      exact ih hn.2 hrt

theorem statusOf_of_mem_nodup (store : List SfRecord) (r : SfRecord)
    (hn : (store.map (fun x => x.id)).Nodup) (hr : r ∈ store) :
    statusOf store r.id = some r.status := by
  unfold statusOf
  rw [find?_of_mem_nodup store r hn hr]
  rfl

theorem getPending_ids_nodup (store : List SfRecord)
    (hn : (store.map (fun r => r.id)).Nodup) :
    ((getPendingSfEvents store).map (fun r => r.id)).Nodup := by
  have hperm : (getPendingSfEvents store).Perm
      (store.filter (fun r => r.status == "PENDING")) := by
    unfold getPendingSfEvents
    exact (List.perm_insertionSort _ _).trans (List.perm_insertionSort _ _)
  have hfil : ((store.filter (fun r => r.status == "PENDING")).map
      (fun r => r.id)).Nodup :=
    List.Nodup.sublist (List.Sublist.map _ (List.filter_sublist store)) hn
  exact ((hperm.map (fun r => r.id)).nodup_iff).mpr hfil

theorem processPending_cons_none (now : String) (m : List (String × Outcome))
    (store : List SfRecord) (evt : SfRecord) (rest : List SfRecord)
    (ho : alookup m (toApptEventKey evt.appointmentId evt.eventType) = none) :
    (processPending now m store (evt :: rest)).1
      = (processPending now m store rest).1 := by
  conv_lhs => rw [processPending]
  rw [ho]

theorem processPending_cons_complete (now : String)
    (m : List (String × Outcome)) (store : List SfRecord) (evt : SfRecord)
    (rest : List SfRecord) (o : Outcome)
    (ho : alookup m (toApptEventKey evt.appointmentId evt.eventType) = some o)
    (hc : o.ok = true ∨ (o.ok = false ∧ o.permanent = true)) :
    (processPending now m store (evt :: rest)).1
      = (processPending now m (markSfEventCompleted now evt.id store) rest).1 := by
  conv_lhs => rw [processPending]
  rw [ho]
  rcases hc with hok | ⟨hok, hperm⟩
  · simp [hok]
  · simp [hok, hperm]

theorem processPending_cons_transient (now : String)
    (m : List (String × Outcome)) (store : List SfRecord) (evt : SfRecord)
    (rest : List SfRecord) (o : Outcome)
    (ho : alookup m (toApptEventKey evt.appointmentId evt.eventType) = some o)
    (hok : o.ok = false) (hperm : o.permanent = false) :
    (processPending now m store (evt :: rest)).1
      = (processPending now m store rest).1 := by
  conv_lhs => rw [processPending]
  rw [ho]
  simp [hok, hperm]

theorem processPending_frame (now : String) (m : List (String × Outcome)) :
    ∀ (pending : List SfRecord) (store : List SfRecord) (i : String),
    (∀ e ∈ pending, e.id ≠ i) →
    statusOf (processPending now m store pending).1 i = statusOf store i := by
  intro pending
  induction pending with
  | nil => intro store i _; rfl
  | cons evt rest ih =>
    intro store i h
    have hrest : ∀ e ∈ rest, e.id ≠ i :=
      fun e he => h e (List.mem_cons_of_mem _ he)
    have hevt : evt.id ≠ i := h evt (List.mem_cons_self _ _)
    cases ho : alookup m (toApptEventKey evt.appointmentId evt.eventType) with
    | none =>
      rw [processPending_cons_none now m store evt rest ho]
      exact ih store i hrest
    | some o =>
      by_cases hok : o.ok = true
      · rw [processPending_cons_complete now m store evt rest o ho (Or.inl hok)]
        rw [ih (markSfEventCompleted now evt.id store) i hrest]
        exact statusOf_markSfEventCompleted_other now evt.id store i
          (fun hh => hevt hh.symm)
      · rw [Bool.not_eq_true] at hok
        by_cases hperm : o.permanent = true
        · rw [processPending_cons_complete now m store evt rest o ho
            (Or.inr ⟨hok, hperm⟩)]
          rw [ih (markSfEventCompleted now evt.id store) i hrest]
          exact statusOf_markSfEventCompleted_other now evt.id store i
            (fun hh => hevt hh.symm)
        · rw [Bool.not_eq_true] at hperm
          rw [processPending_cons_transient now m store evt rest o ho hok hperm]
          exact ih store i hrest

theorem processPending_status (now : String) (m : List (String × Outcome)) :
    ∀ (pending : List SfRecord) (store : List SfRecord) (evt : SfRecord),
    (pending.map (fun r => r.id)).Nodup →
    evt ∈ pending →
    (∃ r, r ∈ store ∧ r.id = evt.id) →
    ((alookup m (toApptEventKey evt.appointmentId evt.eventType) = none →
        statusOf (processPending now m store pending).1 evt.id
          = statusOf store evt.id) ∧
     (∀ o, alookup m (toApptEventKey evt.appointmentId evt.eventType) = some o →
        (o.ok = true ∨ (o.ok = false ∧ o.permanent = true)) →
        statusOf (processPending now m store pending).1 evt.id
          = some "COMPLETED") ∧
     (∀ o, alookup m (toApptEventKey evt.appointmentId evt.eventType) = some o →
        o.ok = false → o.permanent = false →
        statusOf (processPending now m store pending).1 evt.id
          = statusOf store evt.id)) := by
  intro pending
  induction pending with
  | nil => intro store evt _ hevt; cases hevt
  | cons e0 rest ih =>
    intro store evt hn hevt hex
    rw [List.map_cons, List.nodup_cons] at hn
    rcases List.mem_cons.mp hevt with heq | hmem
    · subst heq
      have hrest : ∀ e ∈ rest, e.id ≠ evt.id := by
        intro e he hh
        exact hn.1 (hh ▸ List.mem_map_of_mem (fun r => r.id) he)
      refine ⟨fun ho => ?_, fun o ho hc => ?_, fun o ho hok hperm => ?_⟩
      · rw [processPending_cons_none now m store evt rest ho]
        exact processPending_frame now m rest store evt.id hrest
      · rw [processPending_cons_complete now m store evt rest o ho hc]
        rw [processPending_frame now m rest
          (markSfEventCompleted now evt.id store) evt.id hrest]
        exact statusOf_markSfEventCompleted_self now evt.id store hex
      · rw [processPending_cons_transient now m store evt rest o ho hok hperm]
        exact processPending_frame now m rest store evt.id hrest
    · have hne : e0.id ≠ evt.id := by
        intro hh
        exact hn.1 (hh ▸ List.mem_map_of_mem (fun r => r.id) hmem)
      have hframe : ∀ st : List SfRecord,
          statusOf (markSfEventCompleted now e0.id st) evt.id
            = statusOf st evt.id :=
        fun st => statusOf_markSfEventCompleted_other now e0.id st evt.id
          (fun hh => hne hh.symm)
      cases ho0 : alookup m (toApptEventKey e0.appointmentId e0.eventType) with
      | none =>
        rw [processPending_cons_none now m store e0 rest ho0]
        exact ih store evt hn.2 hmem hex
      | some o0 =>
        by_cases hok0 : o0.ok = true
        · rw [processPending_cons_complete now m store e0 rest o0 ho0 (Or.inl hok0)]
          have hex' : ∃ r, r ∈ markSfEventCompleted now e0.id store ∧ r.id = evt.id :=
            markSfEventCompleted_preserves_exists now e0.id store evt.id hex
          obtain ⟨ha, hb, hc⟩ := ih (markSfEventCompleted now e0.id store) evt hn.2 hmem hex'
          refine ⟨fun ho => ?_, fun o ho hcc => hb o ho hcc, fun o ho h1 h2 => ?_⟩
          · rw [ha ho]; exact hframe store
          · rw [hc o ho h1 h2]; exact hframe store
        · rw [Bool.not_eq_true] at hok0
          by_cases hperm0 : o0.permanent = true
          · rw [processPending_cons_complete now m store e0 rest o0 ho0
              (Or.inr ⟨hok0, hperm0⟩)]
            have hex' : ∃ r, r ∈ markSfEventCompleted now e0.id store ∧ r.id = evt.id :=
              markSfEventCompleted_preserves_exists now e0.id store evt.id hex
            obtain ⟨ha, hb, hc⟩ := ih (markSfEventCompleted now e0.id store) evt hn.2 hmem hex'
            refine ⟨fun ho => ?_, fun o ho hcc => hb o ho hcc, fun o ho h1 h2 => ?_⟩
            · rw [ha ho]; exact hframe store
            · rw [hc o ho h1 h2]; exact hframe store
          · rw [Bool.not_eq_true] at hperm0
            rw [processPending_cons_transient now m store e0 rest o0 ho0 hok0 hperm0]
            exact ih store evt hn.2 hmem hex

theorem syncPending_resolved_store (tok now rawText : String)
    (data : Option (List SfResult)) (store : List SfRecord) (htok : tok ≠ "")
    (hne : (getPendingSfEvents store).isEmpty = false) :
    (syncPending (some tok) true now (.ok (data, rawText)) store).1
      = (processPending now (reduceOutcomes (data.getD [])) store
          (getPendingSfEvents store)).1 := by
  unfold syncPending
  have h1 : jsTruthy (some tok) = some tok := by simp [jsTruthy, htok]
  simp [h1, hne]

/-! ## Theorems -/

/-- C3. For every per-event outcome returned by the remote authority, the
dispatcher classifies it as a permanent failure if and only if the reported
status code and error code match the single "external reference no longer
resolves" signature: HTTP 404 with error code `NOT_FOUND`, or 404 with the
provided-external-id-does-not-exist message; every other failure is not
classified permanent (and is therefore retried as transient). -/
theorem isPermanentFailure_iff_notFound_signature (r : SfResult) :
    isPermanentFailure r = true ↔
      r.statusCode = some 404 ∧
        (extractErrorCode r = "NOT_FOUND" ∨
          strIncludes (strToLower (normalizeErrMessage (errOf r)))
            missingExternalIdPhrase = true) := by
  simp only [isPermanentFailure]
  cases h1 : (r.statusCode == some 404 && extractErrorCode r == "NOT_FOUND") <;>
    cases h2 : (r.statusCode == some 404 &&
        strIncludes (strToLower (normalizeErrMessage (errOf r)))
          missingExternalIdPhrase) <;>
      simp_all [Bool.and_eq_true, beq_iff_eq]

/-- C5. When the credential is missing or falsy, or the device is offline,
or no event is pending, `syncPending` returns the no-op result (zero counts,
no error) with the store untouched, and the returned value does not depend
on the network at all (the same result for every possible batch-call
behaviour, so no request is consulted). -/
theorem syncPending_precondition_noop (idToken : Option String) (onLine : Bool)
    (store : List SfRecord)
    (h : (jsTruthy idToken).isSome = false ∨ onLine = false ∨
      getPendingSfEvents store = []) :
    ∀ (now : String) (net : BatchCallResult),
      syncPending idToken onLine now net store = (store, .ok emptySyncResult) := by
  intro now net
  unfold syncPending
  cases hb : (!(jsTruthy idToken).isSome || !onLine) with
  | true => simp [hb]
  | false =>
    rcases h with h | h | h
    · simp_all
    · simp_all
    · simp [hb, h]

/-- C5 witness: with no credential the call is a no-op on a nonempty store,
whatever the network would have answered. -/
theorem syncPending_precondition_noop_witness :
    syncPending none true "2024-02-02T00:00:00Z" (.error "unreachable") c1Store
      = (c1Store, .ok emptySyncResult) :=
  syncPending_precondition_noop none true c1Store (Or.inl rfl)
    "2024-02-02T00:00:00Z" (.error "unreachable")

/-- C1. If the batch call of `syncPending` throws before any per-event
response is parsed — network failure or a non-2xx HTTP status — then the
store is untouched: every event that was pending before the call is still
stored and still pending afterwards. -/
theorem syncPending_throwing_batch_keeps_all_pending (idToken : Option String)
    (onLine : Bool) (now errMsg : String) (store : List SfRecord) :
    (syncPending idToken onLine now (.error errMsg) store).1 = store ∧
    ∀ r ∈ store, r.status = "PENDING" →
      r ∈ (syncPending idToken onLine now (.error errMsg) store).1 ∧
        r.status = "PENDING" := by
  have hfst : (syncPending idToken onLine now (.error errMsg) store).1 = store := by
    unfold syncPending
    cases hb : (!(jsTruthy idToken).isSome || !onLine) with
    | true => simp [hb]
    | false =>
      cases hp : (getPendingSfEvents store).isEmpty with
      | true => simp [hb, hp]
      | false => simp [hb, hp]
  refine ⟨hfst, fun r hr hs => ?_⟩
  rw [hfst]
  exact ⟨hr, hs⟩

/-- C1 witness: a concrete throwing batch call leaves the one pending event
stored and pending. -/
theorem syncPending_throwing_batch_keeps_all_pending_witness :
    (syncPending (some "tok") true "2024-02-02T00:00:00Z"
        (.error "sfStatusEvents failed: 502 Bad Gateway") c1Store).1 = c1Store ∧
    c1Record ∈ (syncPending (some "tok") true "2024-02-02T00:00:00Z"
        (.error "sfStatusEvents failed: 502 Bad Gateway") c1Store).1 ∧
    c1Record.status = "PENDING" :=
  ⟨(syncPending_throwing_batch_keeps_all_pending (some "tok") true
      "2024-02-02T00:00:00Z" "sfStatusEvents failed: 502 Bad Gateway" c1Store).1,
   (syncPending_throwing_batch_keeps_all_pending (some "tok") true
      "2024-02-02T00:00:00Z" "sfStatusEvents failed: 502 Bad Gateway" c1Store).2
     c1Record (by decide) rfl⟩

/-- C7. For every store operation run through `withStore`, a
missing-schema `NotFoundError` from the engine triggers exactly one retry of
the operation against the recreated database; the retry's own failure is
surfaced; any other error is surfaced without a retry; a first-try success
runs the operation once. -/
theorem withStore_missing_schema_retry {Db α : Type} (db freshDb : Db)
    (fn : Db → Except JsError α) :
    (∀ a, fn db = .ok a → withStore db freshDb fn = (.ok a, 1)) ∧
    (∀ e, fn db = .error e → e.name = "NotFoundError" →
      withStore db freshDb fn = (fn freshDb, 2)) ∧
    (∀ e e', fn db = .error e → e.name = "NotFoundError" →
      fn freshDb = .error e' → withStore db freshDb fn = (.error e', 2)) ∧
    (∀ e, fn db = .error e → e.name ≠ "NotFoundError" →
      withStore db freshDb fn = (.error e, 1)) := by
  refine ⟨fun a ha => ?_, fun e he hn => ?_, fun e e' he hn he' => ?_,
    fun e he hn => ?_⟩
  · unfold withStore; rw [ha]
  · unfold withStore; rw [he]; simp [hn]
  · unfold withStore; rw [he]; simp [hn, he']
  · unfold withStore; rw [he]; simp [hn]

/-- C7 witness: an operation that keeps failing with `NotFoundError` is run
twice and its retry failure is surfaced. -/
theorem withStore_missing_schema_retry_witness :
    withStore () () (fun _ => (.error ⟨"NotFoundError"⟩ : Except JsError Unit))
      = (.error ⟨"NotFoundError"⟩, 2) :=
  (withStore_missing_schema_retry () ()
      (fun _ => (.error ⟨"NotFoundError"⟩ : Except JsError Unit))).2.2.1
    ⟨"NotFoundError"⟩ ⟨"NotFoundError"⟩ rfl rfl rfl

/-- C9. A call to `queueEvent` whose event is absent or has a missing or
empty `appointmentId` is rejected synchronously: the store is untouched, the
result reports nothing queued and no sync, and the outcome does not depend
on the network at all. -/
theorem queueEvent_missing_appointmentId_rejected (idToken : Option String)
    (user : Option UserInfo) (onLine : Bool) (freshId now : String)
    (event : Option EventInput) (autoSyncOpt : Option Bool)
    (store : List SfRecord)
    (h : event = none ∨ ∃ e, event = some e ∧
      (e.appointmentId = none ∨ e.appointmentId = some "")) :
    ∀ net : BatchCallResult,
      queueEvent idToken user onLine freshId now net event autoSyncOpt store
        = (store, { queued := none, syncRes := none }) := by
  intro net
  rcases h with h | ⟨e, he, ha⟩
  · subst h; rfl
  · subst he
    unfold queueEvent
    rcases ha with ha | ha <;> simp [ha, jsOrStr, jsTruthy]

/-- C9 witness: an event with an empty appointment id is rejected with the
store untouched, even while online, authenticated and auto-syncing. -/
theorem queueEvent_missing_appointmentId_rejected_witness :
    queueEvent (some "tok") (some { sub := some "u" }) true "fresh-9"
        "2024-02-02T00:00:00Z" (.ok (none, "")) (some c9EmptyApptInput) none c1Store
      = (c1Store, { queued := none, syncRes := none }) :=
  queueEvent_missing_appointmentId_rejected (some "tok") (some { sub := some "u" })
    true "fresh-9" "2024-02-02T00:00:00Z" (some c9EmptyApptInput) none c1Store
    (Or.inr ⟨c9EmptyApptInput, rfl, Or.inr rfl⟩) (.ok (none, ""))

/-- C10. The record `queueSfEvent` writes always has status `PENDING` and
`createdAt` equal to the input's `occurredAt` when that is present and
nonempty (otherwise the current time), regardless of any `status` or
`createdAt` the caller supplied; a caller-supplied `id`, however, replaces
the freshly generated identifier as the stored key, and the stored record is
exactly the returned one. -/
theorem queueSfEvent_written_record (freshId now : String) (e : EventInput)
    (store : List SfRecord) :
    (queueSfEvent freshId now e store).2.status = "PENDING" ∧
    (∀ s, e.occurredAt = some s → s ≠ "" →
      (queueSfEvent freshId now e store).2.createdAt = s) ∧
    ((e.occurredAt = none ∨ e.occurredAt = some "") →
      (queueSfEvent freshId now e store).2.createdAt = now) ∧
    (∀ i, e.id = some i → (queueSfEvent freshId now e store).2.id = i) ∧
    (e.id = none → (queueSfEvent freshId now e store).2.id = freshId) ∧
    (queueSfEvent freshId now e store).1
      = putRecord store (queueSfEvent freshId now e store).2 := by
  refine ⟨rfl, fun s hs hne => ?_, fun h => ?_, fun i hi => ?_, fun hi => ?_, rfl⟩
  · simp [queueSfEvent, queueSfEventRecord, jsOrStr, jsTruthy, hs, hne]
  · rcases h with h | h <;> simp [queueSfEvent, queueSfEventRecord, jsOrStr, jsTruthy, h]
  · simp [queueSfEvent, queueSfEventRecord, hi]
  · simp [queueSfEvent, queueSfEventRecord, hi]

/-- C4 counterexample: two outcomes for the same `(appointmentId, eventType)`
key with equal occurrence timestamps, a success seen first and a failure seen
second; the reduction keeps the failure seen second (the code replaces on a
greater-or-equal comparison), so a tie does not keep the first seen. -/
theorem reduceOutcomes_tie_keeps_last_counterexample :
    (mkCandidate c4Success).ts = (mkCandidate c4Failure).ts ∧
    toApptEventKey (some (mkCandidate c4Success).appointmentId)
        (some (mkCandidate c4Success).eventType) = "A::T" ∧
    toApptEventKey (some (mkCandidate c4Failure).appointmentId)
        (some (mkCandidate c4Failure).eventType) = "A::T" ∧
    (mkCandidate c4Success).ok = true ∧
    alookup (reduceOutcomes [c4Success, c4Failure]) "A::T"
      = some (mkCandidate c4Failure) ∧
    mkCandidate c4Failure ≠ mkCandidate c4Success := by
  decide

/-- C4 (amended). For every response list, the reduction keeps, for each
`(appointmentId, eventType)` key, the outcome with the latest occurrence
timestamp among that key's outcomes, computed as a left fold in which a later
outcome replaces the kept one exactly when its timestamp is greater or
equal — so on equal timestamps the outcome seen last (not first) is kept —
and the kept outcome's timestamp is maximal for its key. -/
theorem reduceOutcomes_latest_per_key (results : List SfResult) (key : String) :
    alookup (reduceOutcomes results) key
      = lastMaxByTs (candidatesFor results key) ∧
    (∀ o, lastMaxByTs (candidatesFor results key) = some o →
      ∀ c ∈ candidatesFor results key, c.ts ≤ o.ts) := by
  constructor
  · have h := alookup_foldl_reduceStep results [] key
    simpa [reduceOutcomes, lastMaxByTs, alookup] using h
  · intro o ho c hc
    exact (foldl_keepLater_max (candidatesFor results key) none o ho).2 c hc

/-- C4 witness: in the tie counterexample list, the kept outcome's timestamp
bounds the first-seen candidate's timestamp. -/
theorem reduceOutcomes_latest_per_key_witness :
    (mkCandidate c4Success).ts ≤ (mkCandidate c4Failure).ts :=
  (reduceOutcomes_latest_per_key [c4Success, c4Failure] "A::T").2
    (mkCandidate c4Failure) (by decide) (mkCandidate c4Success) (by decide)

/-- C8 counterexample: two events queued in order while pending; the one
queued second carries the earlier `occurredAt` (hence the earlier
`createdAt`) and is returned first, so the returned list is not in insertion
order — the event queued earlier does not precede the one queued later. -/
theorem getPendingSfEvents_insertion_order_counterexample :
    c8Store.map (fun r => r.id) = ["id-b", "id-a"] ∧
    c8Store.all (fun r => r.status == "PENDING") = true ∧
    (getPendingSfEvents c8Store).map (fun r => r.id) = ["id-a", "id-b"] := by
  decide

/-- C8 (amended). `getPendingSfEvents` returns exactly the events whose
status is `PENDING`, sorted oldest first by `createdAt` — the timestamp
`queueSfEvent` stamped, namely the event's `occurredAt` when supplied and
nonempty, else the enqueue time. This coincides with insertion order only
when `createdAt` order agrees with it; it is not insertion order in
general. -/
theorem getPendingSfEvents_exactly_pending_sorted (store : List SfRecord) :
    (∀ r, r ∈ getPendingSfEvents store ↔ r ∈ store ∧ r.status = "PENDING") ∧
    List.Pairwise (fun a b => parseMs a.createdAt ≤ parseMs b.createdAt)
      (getPendingSfEvents store) :=
  ⟨fun r => mem_getPendingSfEvents store r, sorted_getPendingSfEvents store⟩

/-- C6 counterexample: queueing an input whose caller-supplied `id` collides
with a stored completed event replaces it through `put` and resets its
status to `PENDING` — a completed event is reopened, and the queue did not
append. -/
theorem queueSfEvent_reopens_completed_counterexample :
    c6Completed.status = "COMPLETED" ∧
    statusOf [c6Completed] "k1" = some "COMPLETED" ∧
    statusOf
        (applyOp [c6Completed]
          (.queue "fresh-id" "2024-01-05T00:00:00Z" c6CollidingInput)) "k1"
      = some "PENDING" := by
  decide

/-- C6 (amended). Provided every queue operation stores under a key not
already present (which holds whenever the caller supplies no `id` of its own
and the generated identifier is fresh), no sequence of the public store
operations ever changes a `COMPLETED` event back to `PENDING` — a record
with the same id and status `COMPLETED` survives the whole run — and such a
collision-free queue appends a new record, leaving every existing record
unchanged. -/
theorem sfEvents_append_only_when_ids_fresh (store : List SfRecord)
    (ops : List StoreOp) (h : safeOps store ops = true) :
    (∀ r, r ∈ store → r.status = "COMPLETED" →
      ∃ r', r' ∈ runOps store ops ∧ r'.id = r.id ∧ r'.status = "COMPLETED") ∧
    (∀ (st : List SfRecord) (freshId now : String) (e : EventInput),
      safeOp st (.queue freshId now e) = true →
      applyOp st (.queue freshId now e)
        = st ++ [queueSfEventRecord freshId now e]) :=
  ⟨fun r hr hs => runOps_preserves_completed ops store h r.id ⟨r, hr, rfl, hs⟩,
   fun st freshId now e hs => applyOp_queue_append st freshId now e hs⟩

/-- C6 witness: a collision-free sequence (a redundant mark and a fresh
queue) keeps the completed record `k1` completed. -/
theorem sfEvents_append_only_when_ids_fresh_witness :
    ∃ r', r' ∈ runOps [c6Completed] c6SafeSequence ∧ r'.id = c6Completed.id ∧
      r'.status = "COMPLETED" :=
  (sfEvents_append_only_when_ids_fresh [c6Completed] c6SafeSequence
      (by decide)).1 c6Completed (by decide) rfl

/-- C2. After a successful batch call, each locally pending event's final
local status is determined by looking up its outcome under the composite
`(appointmentId, eventType)` key in the reduced outcome map: no matching
outcome keeps it `PENDING`; a success outcome marks it `COMPLETED`; a failure
classified permanent marks it `COMPLETED` anyway; a failure classified
transient keeps it `PENDING`. -/
theorem syncPending_event_disposition (tok now rawText : String)
    (data : Option (List SfResult)) (store : List SfRecord) (evt : SfRecord)
    (htok : tok ≠ "") (hn : (store.map (fun r => r.id)).Nodup)
    (hevt : evt ∈ getPendingSfEvents store) :
    (alookup (reduceOutcomes (data.getD []))
        (toApptEventKey evt.appointmentId evt.eventType) = none →
      statusOf (syncPending (some tok) true now (.ok (data, rawText)) store).1
          evt.id = some "PENDING") ∧
    (∀ o, alookup (reduceOutcomes (data.getD []))
        (toApptEventKey evt.appointmentId evt.eventType) = some o →
      o.ok = true →
      statusOf (syncPending (some tok) true now (.ok (data, rawText)) store).1
          evt.id = some "COMPLETED") ∧
    (∀ o, alookup (reduceOutcomes (data.getD []))
        (toApptEventKey evt.appointmentId evt.eventType) = some o →
      o.ok = false → o.permanent = true →
      statusOf (syncPending (some tok) true now (.ok (data, rawText)) store).1
          evt.id = some "COMPLETED") ∧
    (∀ o, alookup (reduceOutcomes (data.getD []))
        (toApptEventKey evt.appointmentId evt.eventType) = some o →
      o.ok = false → o.permanent = false →
      statusOf (syncPending (some tok) true now (.ok (data, rawText)) store).1
          evt.id = some "PENDING") := by
  obtain ⟨hmem, hstat⟩ := (mem_getPendingSfEvents store evt).mp hevt
  have hne : (getPendingSfEvents store).isEmpty = false := by
    cases hp : getPendingSfEvents store with
    | nil => rw [hp] at hevt; cases hevt
    | cons a l => rfl
  have hrw := syncPending_resolved_store tok now rawText data store htok hne
  have hpn : ((getPendingSfEvents store).map (fun r => r.id)).Nodup :=
    getPending_ids_nodup store hn
  have hex : ∃ r, r ∈ store ∧ r.id = evt.id := ⟨evt, hmem, rfl⟩
  obtain ⟨ha, hb, hc⟩ := processPending_status now (reduceOutcomes (data.getD []))
    (getPendingSfEvents store) store evt hpn hevt hex
  have hsp : statusOf store evt.id = some "PENDING" := by
    have := statusOf_of_mem_nodup store evt hn hmem
    rw [hstat] at this
    exact this
  refine ⟨fun ho => ?_, fun o ho hok => ?_, fun o ho hok hperm => ?_,
    fun o ho hok hperm => ?_⟩
  · rw [hrw, ha ho, hsp]
  · rw [hrw]; exact hb o ho (Or.inl hok)
  · rw [hrw]; exact hb o ho (Or.inr ⟨hok, hperm⟩)
  · rw [hrw, hc o ho hok hperm, hsp]

/-- C2 witness: in a concrete batch of four pending events receiving a
success, a permanent failure and a transient failure, the success event ends
up completed. -/
theorem syncPending_event_disposition_witness :
    statusOf (syncPending (some "tok") true "2024-02-01T00:00:00Z"
        (.ok (c2Data, "raw")) c2Store).1 c2Evt1.id = some "COMPLETED" :=
  (syncPending_event_disposition "tok" "2024-02-01T00:00:00Z" "raw" c2Data
      c2Store c2Evt1 (by decide) (by decide) (by decide)).2.1
    (mkCandidate c2OkResult) (by decide) (by decide)

/-- C10 witness: a caller-supplied `status`, `createdAt` and `id` — the
first two are overridden, the id wins over the generated one. -/
theorem queueSfEvent_written_record_witness :
    (queueSfEvent "gen-id" "2024-06-01T00:00:00Z" c10Input []).2.status = "PENDING" ∧
    (queueSfEvent "gen-id" "2024-06-01T00:00:00Z" c10Input []).2.createdAt
      = "2024-05-05T10:00:00Z" ∧
    (queueSfEvent "gen-id" "2024-06-01T00:00:00Z" c10Input []).2.id = "caller-id" :=
  ⟨(queueSfEvent_written_record "gen-id" "2024-06-01T00:00:00Z" c10Input []).1,
   (queueSfEvent_written_record "gen-id" "2024-06-01T00:00:00Z" c10Input []).2.1
     "2024-05-05T10:00:00Z" rfl (by decide),
   (queueSfEvent_written_record "gen-id" "2024-06-01T00:00:00Z" c10Input
       []).2.2.2.1 "caller-id" rfl⟩

end SfSync



